import Mathlib

/-!
Shallow embedding of the retrieval layer of a language-model toolkit:
a vector-store backend wrapping an external full-text/vector search
engine (`ElasticVectorSearch`, from
`langchain/vectorstores/elastic_vector_search.py`) and an example
selector that picks few-shot examples by semantic similarity
(`SemanticSimilarityExampleSelector`, from
`langchain/prompts/example_selector/semantic_similarity.py`).

Python dicts are modelled as association lists in insertion order
(Python 3.7+ dicts preserve insertion order, and `.values()` iterates in
that order).  Embedding vectors are modelled as exact integer vectors
(`List ℤ`): cosine ranking is invariant under positive scaling, so any
exact rational embedding is equivalent to an integer one, and integer
arithmetic keeps every comparison kernel-computable.

The external search engine itself is not part of the repository; it is
modelled from the spec: the index holds one `(text, vector)` entry per
indexed text, and a search ranks all entries by
`cosineSimilarity(query_vector, stored_vector) + 1.0`, highest first,
stably (ties keep insertion order).  Since `cos = dot/(‖q‖·‖v‖)` is
irrational in general, the ranking here compares the strictly monotone
surrogate `sign(cos)·cos² = dot·sign(dot)·dot / (‖q‖²·‖v‖²)` — a
fraction with nonnegative integer parts — by exact cross-multiplication
(`x ↦ x·sign(x)·x` is strictly increasing, so the surrogate induces the
same ordering and the same ties as the cosine score; the `+ 1.0` shift
changes no comparison).  A zero-norm vector is given score 0.
-/

namespace LangChain

/-- Modelled from the spec: `Document` (from `langchain.docstore.document`,
not under the provided sources) is an immutable value with a text payload
and an optional mapping of metadata key→value; metadata defaults to empty. -/
structure Document where
  page_content : String
  metadata : List (String × String)
  deriving DecidableEq, Repr

/-- A Python dict of field name → string value, in insertion order. -/
abbrev PyDict := List (String × String)

/-- Python `d[k]` as an option: first binding for `k` (dicts are
duplicate-free, so first = only). -/
def dictGet (d : PyDict) (key : String) : Option String :=
  (d.find? (fun p => p.1 = key)).map Prod.snd

/-! ### Engine score model -/

/-- Dot product of two vectors (componentwise, truncating zip; the
engine operates on equal-dimension vectors). -/
def dotZ (u v : List ℤ) : ℤ := (List.zipWith (· * ·) u v).sum

/-- Squared Euclidean norm. -/
def norm2 (v : List ℤ) : ℤ := dotZ v v

/-- `a·|a|` written without lattice operations, so it reduces in the
kernel. -/
def signedSq (a : ℤ) : ℤ := if a < 0 then -(a * a) else a * a

/-- Numerator of the surrogate score `sign(cos)·cos²` of stored vector
`v` against query `q` (0 when either vector has zero norm). -/
def scoreNum (q v : List ℤ) : ℤ :=
  if norm2 q * norm2 v = 0 then 0 else signedSq (dotZ q v)

/-- (Positive) denominator of the surrogate score: `‖q‖²·‖v‖²`, or 1
when that product is zero. -/
def scoreDen (q v : List ℤ) : ℤ :=
  if norm2 q * norm2 v = 0 then 1 else norm2 q * norm2 v

/-- Engine comparison "the score of `u` against `q` does not exceed the
score of `v` against `q`", decided exactly by cross-multiplying the two
surrogate fractions (denominators are positive). -/
def scoreLeB (q u v : List ℤ) : Bool :=
  decide (scoreNum q u * scoreDen q v ≤ scoreNum q v * scoreDen q u)

/-- Strict version: `u` scores strictly below `v` against `q`. -/
def scoreLtB (q u v : List ℤ) : Bool := !scoreLeB q v u

/-! ### Stable descending sort (engine ranking, ties by insertion order) -/

/-- Insert `x` into a descending-sorted list, before the first element
whose score does not exceed `x`'s (`r y x` reads "y's score ≤ x's
score"); an earlier element thus precedes later-inserted elements of
equal score (stability). -/
def insertDesc (r : α → α → Bool) (x : α) : List α → List α
  | [] => [x]
  | y :: ys => if r y x then x :: y :: ys else y :: insertDesc r x ys

/-- Stable insertion sort, highest score first. -/
def sortDesc (r : α → α → Bool) : List α → List α
  | [] => []
  | x :: xs => insertDesc r x (sortDesc r xs)

/-! ### ElasticVectorSearch (`langchain/vectorstores/elastic_vector_search.py`) -/

/-- Python exceptions surfaced by this layer. -/
inductive PyErr where
  | valueError (msg : String)
  /-- `IndexError`: out-of-range subscript, e.g. `embeddings[0]` on `[]`. -/
  | indexError
  /-- `NameError`: a referenced name is not bound in any enclosing scope. -/
  | nameError (missing : String)
  deriving DecidableEq, Repr

/-- Operations issued to the external search engine, in program order.
Constructing the client (`elasticsearch.Elasticsearch(url)`) is recorded
as `connect`; it parses the URL but does not contact the network. -/
inductive EsOp where
  | connect (url : String)
  | indicesCreate (index : String) (dim : Nat)
  | bulkIndex (index : String) (entries : List (String × List ℤ))
  | refresh (index : String)
  deriving DecidableEq, Repr

/-- State of an `ElasticVectorSearch` wrapper: the connection URL, the
target index name, the per-item embedding function, and — standing in for
the external engine — the entries `{text, vector}` currently visible in
the index (the engine serializes writes; `refresh` makes them visible). -/
structure ElasticVectorSearch where
  elasticsearch_url : String
  index_name : String
  embedding_function : String → List ℤ
  entries : List (String × List ℤ)

/-- Modelled from the spec: the engine executes the script-score query
(`cosineSimilarity(params.query_vector, vector) + 1.0` over `match_all`)
and returns every indexed entry ranked score-descending, stably;
`scoreLeB` is the exact order-isomorphic comparison for that score (file
header). -/
def esSearch (entries : List (String × List ℤ)) (query_vector : List ℤ) :
    List (String × List ℤ) :=
  sortDesc (fun e1 e2 => scoreLeB query_vector e1.2 e2.2) entries

/-- `similarity_search(self, query, k)` (lines 85–100): embed the query
with `self.embedding_function`, run the script-score query, take the
first `k` hits, and wrap each hit's stored `text` in a `Document`
(constructed as `Document(page_content=text)`, so metadata is empty). -/
def ElasticVectorSearch.similarity_search (store : ElasticVectorSearch)
    (query : String) (k : Nat) : List Document :=
  let embedding := store.embedding_function query
  let hits := esSearch store.entries embedding
  let texts := (hits.take k).map Prod.fst
  texts.map (fun text => { page_content := text, metadata := [] })

/-- `add_texts(self, texts)` (lines 71–83): the loop embeds each text
with `self.embedding_function` and builds one index request per text,
but the following call `bulk(self.client, requests)` references the name
`bulk`, which is imported only inside `from_texts` (function-local
scope) and is bound neither at module level nor in builtins — so the
call raises `NameError` before any request reaches the engine, and the
trailing `indices.refresh` is unreachable.  No engine operation happens. -/
def ElasticVectorSearch.add_texts (store : ElasticVectorSearch)
    (texts : List String) : Except PyErr ElasticVectorSearch × List EsOp :=
  let _requests := texts.map (fun text => (text, store.embedding_function text))
  (Except.error (PyErr.nameError "bulk"), [])

/-- The `ValueError` message raised when no endpoint is configured. -/
def urlErrorMsg : String :=
  "Did not find Elasticsearch URL, please add an environment variable" ++
  " `ELASTICSEARCH_URL` which contains it, or pass" ++
  "  `elasticsearch_url` as a named parameter."

/-- Lines 127–136 of `from_texts`: `kwargs.get("elasticsearch_url")`,
falling back to `os.environ.get("ELASTICSEARCH_URL")` when the explicit
value is falsy (`None` or `""`), and raising `ValueError` when the
fallback is `None` or `""`. -/
def resolveElasticsearchUrl (kwargs_url env_url : Option String) :
    Except PyErr String :=
  let fromEnv : Except PyErr String :=
    match env_url with
    | none => Except.error (PyErr.valueError urlErrorMsg)
    | some e =>
      if e = "" then Except.error (PyErr.valueError urlErrorMsg)
      else Except.ok e
  match kwargs_url with
  | none => fromEnv
  | some u => if u = "" then fromEnv else Except.ok u

/-- `from_texts(cls, texts, embedding, **kwargs)` (lines 102–169).
`metadatas`, when passed, is swallowed by `**kwargs` and never used —
the parameter is kept here to make that explicit.  The `Embeddings`
capability (`langchain.embeddings.base`, not under the provided
sources) is modelled from the spec: it exposes `embed_documents`
(batch, one vector per text) and `embed_query` (single), assumed
consistent, so both are represented by the one per-text function
`embed` with `embed_documents(texts) = texts.map embed`.  `index_name`
stands for the freshly generated `uuid.uuid4().hex`.  Steps: resolve
the URL (ValueError if absent), construct the client, embed all texts,
take `dim = len(embeddings[0])` (IndexError on empty input, before any
index is created), create the index, bulk-index one `{text, vector}`
request per text, refresh, and return
`cls(elasticsearch_url, index_name, embedding.embed_query)`. -/
def ElasticVectorSearch.from_texts (kwargs_url env_url : Option String)
    (metadatas : Option (List PyDict)) (embed : String → List ℤ)
    (index_name : String) (texts : List String) :
    Except PyErr ElasticVectorSearch × List EsOp :=
  match resolveElasticsearchUrl kwargs_url env_url with
  | Except.error e => (Except.error e, [])
  | Except.ok elasticsearch_url =>
    -- client = elasticsearch.Elasticsearch(elasticsearch_url)
    let ops := [EsOp.connect elasticsearch_url]
    -- embeddings = embedding.embed_documents(texts)
    let embeddings := texts.map embed
    -- dim = len(embeddings[0])
    match embeddings with
    | [] => (Except.error PyErr.indexError, ops)
    | v0 :: _ =>
      let dim := v0.length
      let ops := ops ++ [EsOp.indicesCreate index_name dim]
      -- one request per text, vector = embeddings[i]
      let requests := texts.zip (texts.map embed)
      let ops := ops ++ [EsOp.bulkIndex index_name requests,
                         EsOp.refresh index_name]
      (Except.ok { elasticsearch_url := elasticsearch_url,
                   index_name := index_name,
                   embedding_function := embed,
                   entries := requests }, ops)

/-! ### SemanticSimilarityExampleSelector
(`langchain/prompts/example_selector/semantic_similarity.py`) -/

/-- State of a `SemanticSimilarityExampleSelector`: a `VectorStore` held
by composition (represented by its `similarity_search` capability,
`query ↦ k ↦ documents`), the result count `k` (pydantic default 4), and
the optional allow-list `example_keys` (pydantic default `None`). -/
structure SemanticSimilarityExampleSelector where
  vectorstore_search : String → Nat → List Document
  k : Nat
  example_keys : Option (List String)

/-- Line 71: `" ".join(eg.values())` — the flattened document text built
by `from_examples` for one example. -/
def fromExamplesText (eg : PyDict) : String :=
  String.intercalate " " (eg.map Prod.snd)

/-- Line 30: `" ".join(input_variables.values())` — the query string
built by `select_examples`. -/
def selectExamplesQuery (input_variables : PyDict) : String :=
  String.intercalate " " (input_variables.map Prod.snd)

/-- The inner dict comprehension of line 37, `{k: eg[k] for k in
self.example_keys}`: looked-up keys in allow-list order; a missing key
raises `KeyError` (carrying that key) at the first offender. -/
def projectExample (keys : List String) (eg : PyDict) :
    Except String PyDict :=
  match keys with
  | [] => Except.ok []
  | key :: rest =>
    match dictGet eg key with
    | none => Except.error key
    | some v => (projectExample rest eg).map (fun p => (key, v) :: p)

/-- The outer list comprehension of line 37, over the retrieved
examples in order; the first `KeyError` aborts the whole comprehension. -/
def projectAll (keys : List String) (egs : List PyDict) :
    Except String (List PyDict) :=
  match egs with
  | [] => Except.ok []
  | eg :: rest =>
    match projectExample keys eg with
    | Except.error e => Except.error e
    | Except.ok p => (projectAll keys rest).map (fun ps => p :: ps)

/-- `select_examples(self, input_variables)` (lines 27–38): join the
input's values into a query, retrieve `self.k` similar documents, read
each document's metadata back as an example dict, and — only when
`self.example_keys` is truthy (`None` and `[]` are both falsy in
Python) — project every example onto exactly those keys.  The `Except`
models the `KeyError` a projection may raise. -/
def SemanticSimilarityExampleSelector.select_examples
    (s : SemanticSimilarityExampleSelector) (input_variables : PyDict) :
    Except String (List PyDict) :=
  let query := selectExamplesQuery input_variables
  let example_docs := s.vectorstore_search query s.k
  let examples := example_docs.map (fun e => e.metadata)
  match s.example_keys with
  | none => Except.ok examples
  | some keys =>
    if keys.isEmpty then Except.ok examples else projectAll keys examples

/-- `from_examples(cls, examples, embeddings, vectorstore_cls, k=4,
**vectorstore_cls_kwargs)` (lines 40–75): flatten each example to a
string, call `vectorstore_cls.from_texts(string_examples, embeddings,
metadatas=examples, **kwargs)`, and wrap the resulting store with `k`
(`example_keys` is left at its default `None`).  The backend class,
embeddings object and extra kwargs are abstracted into
`from_texts_impl`, which maps the texts and metadatas to the built
store's `similarity_search` capability. -/
def SemanticSimilarityExampleSelector.from_examples
    (examples : List PyDict)
    (from_texts_impl : List String → List PyDict → (String → Nat → List Document))
    (k : Nat) : SemanticSimilarityExampleSelector :=
  let string_examples := examples.map fromExamplesText
  let vectorstore := from_texts_impl string_examples examples
  { vectorstore_search := vectorstore, k := k, example_keys := none }

/-! ### Concrete instances used to exercise the theorems -/

/-- A one-dimensional embedding, constant `[1]`. -/
def w1Embed : String → List ℤ := fun _ => [1]

/-- The store `from_texts` builds from the single text `"alpha"` under
`w1Embed`. -/
def w1Store : ElasticVectorSearch :=
  { elasticsearch_url := "http://localhost:9200", index_name := "idx1",
    embedding_function := w1Embed, entries := [("alpha", [1])] }

/-- The engine operations `from_texts` issues while building `w1Store`. -/
def w1Ops : List EsOp :=
  [EsOp.connect "http://localhost:9200", EsOp.indicesCreate "idx1" 1,
   EsOp.bulkIndex "idx1" [("alpha", [1])], EsOp.refresh "idx1"]

/-- An embedding sending `"a"` to `[2]` and every other text to `[1]`:
deterministic and exact, yet `[2]` and `[1]` are positive scalar
multiples, so their cosine scores against any query tie. -/
def cexEmbed : String → List ℤ := fun s => if s = "a" then [2] else [1]

/-- An embedding with orthogonal images for `"a"` and the rest. -/
def w2Embed : String → List ℤ := fun s => if s = "a" then [1, 0] else [0, 1]

/-- The store `from_texts` builds from `["a", "b"]` under `w2Embed`. -/
def w2Store : ElasticVectorSearch :=
  { elasticsearch_url := "http://localhost:9200", index_name := "idx2",
    embedding_function := w2Embed, entries := [("a", [1, 0]), ("b", [0, 1])] }

/-- The engine operations `from_texts` issues while building `w2Store`. -/
def w2Ops : List EsOp :=
  [EsOp.connect "http://localhost:9200", EsOp.indicesCreate "idx2" 2,
   EsOp.bulkIndex "idx2" [("a", [1, 0]), ("b", [0, 1])], EsOp.refresh "idx2"]

/-- A selector whose backend returns one document whose metadata lacks
the allow-listed key `"b"`. -/
def w6Selector : SemanticSimilarityExampleSelector :=
  { vectorstore_search := fun _ _ =>
      [{ page_content := "t", metadata := [("a", "1")] }],
    k := 4, example_keys := some ["b"] }

/-- One stored example for the selector round trip. -/
def w8Examples : List PyDict := [[("q", "2+2"), ("a", "4")]]

/-- A metadata-persisting backend: on the stored example's flattened
text it returns that example's document (text and metadata), else
nothing. -/
def w8Impl : List String → List PyDict → (String → Nat → List Document) :=
  fun _ _ query _ =>
    if query = "2+2 4" then
      [{ page_content := "2+2 4", metadata := [("q", "2+2"), ("a", "4")] }]
    else []

/-! ### Helper lemmas -/

theorem norm2_nonneg (v : List ℤ) : 0 ≤ norm2 v := by
  induction v with
  | nil => simp [norm2, dotZ]
  | cons x xs ih =>
    have hstep : norm2 (x :: xs) = x * x + norm2 xs := by
      simp [norm2, dotZ]
    rw [hstep]
    exact add_nonneg (mul_self_nonneg x) ih

theorem scoreDen_pos (q v : List ℤ) : 0 < scoreDen q v := by
  unfold scoreDen
  by_cases h : norm2 q * norm2 v = 0
  · simp [h]
  · simp only [h, if_false]
    exact lt_of_le_of_ne (mul_nonneg (norm2_nonneg q) (norm2_nonneg v))
      (Ne.symm h)

/-- The engine comparison is total. -/
theorem scoreLeB_total (q a b : List ℤ) (h : scoreLeB q a b = false) :
    scoreLeB q b a = true := by
  unfold scoreLeB at h ⊢
  rw [decide_eq_false_iff_not] at h
  rw [decide_eq_true_eq]
  exact le_of_not_le h

/-- The engine comparison is transitive. -/
theorem scoreLeB_trans (q a b c : List ℤ)
    (h1 : scoreLeB q a b = true) (h2 : scoreLeB q b c = true) :
    scoreLeB q a c = true := by
  unfold scoreLeB at h1 h2 ⊢
  rw [decide_eq_true_eq] at h1 h2 ⊢
  have db := scoreDen_pos q b
  have H1 := mul_le_mul_of_nonneg_right h1 (scoreDen_pos q c).le
  have H2 := mul_le_mul_of_nonneg_right h2 (scoreDen_pos q a).le
  have H3 : scoreNum q a * scoreDen q c * scoreDen q b ≤
      scoreNum q c * scoreDen q a * scoreDen q b := by nlinarith
  exact le_of_mul_le_mul_right H3 db

/-- `x ↦ x·|x|` is strictly increasing on ℝ. -/
theorem mul_abs_strictMono : StrictMono (fun x : ℝ => x * |x|) := by
  intro a b hab
  simp only
  rcases le_or_lt 0 a with ha | ha
  · rw [abs_of_nonneg ha, abs_of_nonneg (ha.trans hab.le)]
    nlinarith
  · rcases le_or_lt 0 b with hb | hb
    · rw [abs_of_neg ha, abs_of_nonneg hb]
      nlinarith
    · rw [abs_of_neg ha, abs_of_neg hb]
      nlinarith

theorem signedSq_eq_mul_abs (a : ℤ) : signedSq a = a * |a| := by
  unfold signedSq
  rcases lt_or_le a 0 with h | h
  · rw [if_pos h, abs_of_neg h]
    ring
  · rw [if_neg (not_lt.mpr h), abs_of_nonneg h]

/-- Justification of the engine model: for vectors of nonzero norm, the
exact integer comparison `scoreLeB q u v` holds precisely when `u`'s
real engine score `dot(q,u)/(‖q‖·‖u‖) + 1.0` does not exceed `v`'s — so
ranking by `scoreLeB` is ranking by the script's cosine score, with the
same ties. -/
theorem scoreLeB_matches_cosine (q u v : List ℤ)
    (hq : 0 < norm2 q) (hu : 0 < norm2 u) (hv : 0 < norm2 v) :
    (scoreLeB q u v = true ↔
      (dotZ q u : ℝ) / (Real.sqrt (norm2 q) * Real.sqrt (norm2 u)) + 1 ≤
        (dotZ q v : ℝ) / (Real.sqrt (norm2 q) * Real.sqrt (norm2 v)) + 1) := by
  have hQ : (0:ℝ) < (norm2 q : ℝ) := by exact_mod_cast hq
  have hU : (0:ℝ) < (norm2 u : ℝ) := by exact_mod_cast hu
  have hV : (0:ℝ) < (norm2 v : ℝ) := by exact_mod_cast hv
  have hsq : (0:ℝ) < Real.sqrt (norm2 q) := Real.sqrt_pos.mpr hQ
  have hsu : (0:ℝ) < Real.sqrt (norm2 u) := Real.sqrt_pos.mpr hU
  have hsv : (0:ℝ) < Real.sqrt (norm2 v) := Real.sqrt_pos.mpr hV
  have hfu : ((dotZ q u : ℝ) / (Real.sqrt (norm2 q) * Real.sqrt (norm2 u))) *
      |(dotZ q u : ℝ) / (Real.sqrt (norm2 q) * Real.sqrt (norm2 u))| =
      (dotZ q u : ℝ) * |(dotZ q u : ℝ)| / ((norm2 q : ℝ) * (norm2 u : ℝ)) := by
    have hss : Real.sqrt (norm2 q) * Real.sqrt (norm2 u) *
        (Real.sqrt (norm2 q) * Real.sqrt (norm2 u)) =
        (norm2 q : ℝ) * (norm2 u : ℝ) := by
      rw [mul_mul_mul_comm, Real.mul_self_sqrt hQ.le, Real.mul_self_sqrt hU.le]
    rw [abs_div, abs_of_pos (mul_pos hsq hsu), div_mul_div_comm, hss]
  have hfv : ((dotZ q v : ℝ) / (Real.sqrt (norm2 q) * Real.sqrt (norm2 v))) *
      |(dotZ q v : ℝ) / (Real.sqrt (norm2 q) * Real.sqrt (norm2 v))| =
      (dotZ q v : ℝ) * |(dotZ q v : ℝ)| / ((norm2 q : ℝ) * (norm2 v : ℝ)) := by
    have hss : Real.sqrt (norm2 q) * Real.sqrt (norm2 v) *
        (Real.sqrt (norm2 q) * Real.sqrt (norm2 v)) =
        (norm2 q : ℝ) * (norm2 v : ℝ) := by
      rw [mul_mul_mul_comm, Real.mul_self_sqrt hQ.le, Real.mul_self_sqrt hV.le]
    rw [abs_div, abs_of_pos (mul_pos hsq hsv), div_mul_div_comm, hss]
  unfold scoreLeB scoreNum scoreDen
  rw [decide_eq_true_eq]
  simp only [if_neg (mul_pos hq hu).ne', if_neg (mul_pos hq hv).ne']
  rw [add_le_add_iff_right]
  calc signedSq (dotZ q u) * (norm2 q * norm2 v) ≤
        signedSq (dotZ q v) * (norm2 q * norm2 u)
      ↔ (dotZ q u : ℝ) * |(dotZ q u : ℝ)| / ((norm2 q : ℝ) * (norm2 u : ℝ)) ≤
          (dotZ q v : ℝ) * |(dotZ q v : ℝ)| / ((norm2 q : ℝ) * (norm2 v : ℝ)) := by
        rw [div_le_div_iff₀ (mul_pos hQ hU) (mul_pos hQ hV), ← @Int.cast_le ℝ]
        push_cast [signedSq_eq_mul_abs]
        constructor <;> intro h <;> nlinarith [h]
    _ ↔ (dotZ q u : ℝ) / (Real.sqrt (norm2 q) * Real.sqrt (norm2 u)) ≤
          (dotZ q v : ℝ) / (Real.sqrt (norm2 q) * Real.sqrt (norm2 v)) := by
        rw [← hfu, ← hfv]
        exact mul_abs_strictMono.le_iff_le

theorem length_insertDesc (r : α → α → Bool) (x : α) (l : List α) :
    (insertDesc r x l).length = l.length + 1 := by
  induction l with
  | nil => rfl
  | cons y ys ih =>
    by_cases h : r y x
    · simp [insertDesc, h]
    · simp [insertDesc, h, ih]

theorem length_sortDesc (r : α → α → Bool) (l : List α) :
    (sortDesc r l).length = l.length := by
  induction l with
  | nil => rfl
  | cons x xs ih => simp [sortDesc, length_insertDesc, ih]

theorem mem_insertDesc (r : α → α → Bool) (x y : α) (l : List α) :
    y ∈ insertDesc r x l ↔ y = x ∨ y ∈ l := by
  induction l with
  | nil => simp [insertDesc]
  | cons z zs ih =>
    by_cases h : r z x
    · simp [insertDesc, h]
    · simp [insertDesc, h, ih]
      tauto

theorem mem_sortDesc (r : α → α → Bool) (y : α) (l : List α) :
    y ∈ sortDesc r l ↔ y ∈ l := by
  induction l with
  | nil => simp [sortDesc]
  | cons x xs ih => simp [sortDesc, mem_insertDesc, ih]

/-- For a total, transitive comparison, the head of the sorted list
dominates every element of the input. -/
theorem sortDesc_head_max (r : α → α → Bool)
    (htot : ∀ a b, r a b = false → r b a = true)
    (htrans : ∀ a b c, r a b = true → r b c = true → r a c = true)
    (l : List α) (h : α) (t : List α) (heq : sortDesc r l = h :: t) :
    ∀ y ∈ l, r y h = true := by
  have hrefl : ∀ a, r a a = true := by
    intro a
    cases hra : r a a with
    | false =>
      have hcontra := htot a a hra
      rw [hra] at hcontra
      exact hcontra
    | true => rfl
  induction l generalizing h t with
  | nil => simp [sortDesc] at heq
  | cons x xs ih =>
    simp only [sortDesc] at heq
    intro y hy
    rcases List.mem_cons.mp hy with hy | hy
    · -- y = x: compare x with the head of insertDesc
      subst hy
      cases hs : sortDesc r xs with
      | nil =>
        rw [hs] at heq
        simp [insertDesc] at heq
        exact heq.1 ▸ hrefl y
      | cons z zs =>
        rw [hs] at heq
        by_cases hc : r z y
        · simp [insertDesc, hc] at heq
          exact heq.1 ▸ hrefl y
        · simp [insertDesc, hc] at heq
          exact heq.1 ▸ htot z y (by simpa using hc)
    · -- y ∈ xs: its score is bounded by the head of sortDesc xs
      cases hs : sortDesc r xs with
      | nil =>
        have hmem : y ∈ sortDesc r xs := (mem_sortDesc r y xs).mpr hy
        rw [hs] at hmem
        simp at hmem
      | cons z zs =>
        have hzy : r y z = true := ih z zs hs y hy
        rw [hs] at heq
        by_cases hc : r z x
        · simp [insertDesc, hc] at heq
          exact heq.1 ▸ htrans y z x hzy hc
        · simp [insertDesc, hc] at heq
          exact heq.1 ▸ hzy

theorem zip_self_map (l : List α) (f : α → β) :
    l.zip (l.map f) = l.map (fun a => (a, f a)) := by
  induction l with
  | nil => rfl
  | cons x xs ih => simp [ih]

/-- The two flattening expressions (line 30 and line 71) denote the same
function. -/
theorem selectQuery_eq_fromText (m : PyDict) :
    selectExamplesQuery m = fromExamplesText m := rfl

/-- Inversion of a successful `from_texts`: the returned wrapper holds
the supplied query-embedding function, the generated index name, and one
`(text, vector)` entry per input text, vectors computed by the batch
embedding. -/
theorem from_texts_ok_inv (kwargs_url env_url : Option String)
    (metadatas : Option (List PyDict)) (embed : String → List ℤ)
    (index_name : String) (texts : List String)
    (store : ElasticVectorSearch) (ops : List EsOp)
    (hok : ElasticVectorSearch.from_texts kwargs_url env_url metadatas embed
      index_name texts = (Except.ok store, ops)) :
    store.embedding_function = embed ∧
    store.entries = texts.map (fun t => (t, embed t)) ∧
    store.index_name = index_name := by
  unfold ElasticVectorSearch.from_texts at hok
  cases hr : resolveElasticsearchUrl kwargs_url env_url with
  | error e => rw [hr] at hok; simp at hok
  | ok url =>
    rw [hr] at hok
    cases hm : texts.map embed with
    | nil => rw [hm] at hok; simp at hok
    | cons v0 vs =>
      rw [hm] at hok
      simp only [Prod.mk.injEq, Except.ok.injEq] at hok
      rw [← hok.1]
      refine ⟨rfl, ?_, rfl⟩
      show texts.zip (v0 :: vs) = _
      rw [← hm]
      exact zip_self_map texts embed

theorem similarity_search_length (store : ElasticVectorSearch)
    (query : String) (k : Nat) :
    (store.similarity_search query k).length = min k store.entries.length := by
  simp [ElasticVectorSearch.similarity_search, esSearch, List.length_take,
    length_sortDesc]

theorem projectExample_error (keys : List String) (eg : PyDict) (key : String)
    (hkey : key ∈ keys) (hmiss : dictGet eg key = none) :
    ∃ e, projectExample keys eg = Except.error e := by
  induction keys with
  | nil => simp at hkey
  | cons k0 rest ih =>
    rcases List.mem_cons.mp hkey with h | h
    · subst h; exact ⟨key, by simp [projectExample, hmiss]⟩
    · cases hg : dictGet eg k0 with
      | none => exact ⟨k0, by simp [projectExample, hg]⟩
      | some v =>
        obtain ⟨e, he⟩ := ih h
        exact ⟨e, by simp [projectExample, hg, he, Except.map]⟩

theorem projectAll_error (keys : List String) (egs : List PyDict) (eg : PyDict)
    (heg : eg ∈ egs) (herr : ∃ e, projectExample keys eg = Except.error e) :
    ∃ e, projectAll keys egs = Except.error e := by
  induction egs with
  | nil => simp at heg
  | cons g rest ih =>
    cases hp : projectExample keys g with
    | error e => exact ⟨e, by simp [projectAll, hp]⟩
    | ok p =>
      rcases List.mem_cons.mp heg with h | h
      · subst h
        obtain ⟨e, he⟩ := herr
        rw [hp] at he
        exact absurd he (by simp)
      · obtain ⟨e, he⟩ := ih h
        exact ⟨e, by simp [projectAll, hp, he, Except.map]⟩

theorem projectExample_ok (keys : List String) (eg : PyDict)
    (hall : ∀ key ∈ keys, (dictGet eg key).isSome) :
    ∃ p, projectExample keys eg = Except.ok p ∧ p.map Prod.fst = keys ∧
      ∀ q ∈ p, dictGet eg q.1 = some q.2 := by
  induction keys with
  | nil => exact ⟨[], rfl, rfl, by simp⟩
  | cons k0 rest ih =>
    have h0 := hall k0 (List.mem_cons_self k0 rest)
    cases hg : dictGet eg k0 with
    | none => rw [hg] at h0; simp at h0
    | some v =>
      obtain ⟨p, hp, hfst, hvals⟩ :=
        ih (fun key hk => hall key (List.mem_cons_of_mem _ hk))
      refine ⟨(k0, v) :: p, ?_, ?_, ?_⟩
      · simp [projectExample, hg, hp, Except.map]
      · simp [hfst]
      · intro q hq
        rcases List.mem_cons.mp hq with h | h
        · subst h; exact hg
        · exact hvals q h

/-! ### Claims -/

/-- C1: for every store built by `ElasticVectorSearch.from_texts` and
every query string and positive `k`, `similarity_search(query, k)`
returns at most `k` documents, the store indexes one entry per input
text, and when `k` is at least the number of indexed entries the result
has exactly that length. -/
theorem claim1_similarity_search_length (kwargs_url env_url : Option String)
    (metadatas : Option (List PyDict)) (embed : String → List ℤ)
    (index_name : String) (texts : List String)
    (store : ElasticVectorSearch) (ops : List EsOp)
    (hok : ElasticVectorSearch.from_texts kwargs_url env_url metadatas embed
      index_name texts = (Except.ok store, ops))
    (query : String) (k : Nat) (hk : 0 < k) :
    (store.similarity_search query k).length ≤ k ∧
    store.entries.length = texts.length ∧
    (store.entries.length ≤ k →
      (store.similarity_search query k).length = store.entries.length) := by
  obtain ⟨-, hentries, -⟩ := from_texts_ok_inv kwargs_url env_url metadatas
    embed index_name texts store ops hok
  refine ⟨?_, ?_, ?_⟩
  · rw [similarity_search_length]; exact min_le_left _ _
  · rw [hentries, List.length_map]
  · intro hle
    rw [similarity_search_length]
    exact min_eq_right hle

/-- C1 witness: the single-entry store built from `["alpha"]`, queried
with `k = 2`. -/
theorem claim1_witness :
    (w1Store.similarity_search "alpha" 2).length ≤ 2 ∧
    w1Store.entries.length = ["alpha"].length ∧
    (w1Store.entries.length ≤ 2 →
      (w1Store.similarity_search "alpha" 2).length = w1Store.entries.length) :=
  claim1_similarity_search_length (some "http://localhost:9200") none none
    w1Embed "idx1" ["alpha"] w1Store w1Ops rfl "alpha" 2 (by decide)

/-- C3: for every store built by `from_texts` — whatever `metadatas` was
passed, since `**kwargs` swallows it — every document returned by
`similarity_search` has empty metadata, and no store is ever extended by
`add_texts` (it raises `NameError` unconditionally, so the "extended via
`add_texts`" case is vacuous). -/
theorem claim3_metadata_never_returned (kwargs_url env_url : Option String)
    (metadatas : Option (List PyDict)) (embed : String → List ℤ)
    (index_name : String) (texts : List String)
    (store : ElasticVectorSearch) (ops : List EsOp)
    (hok : ElasticVectorSearch.from_texts kwargs_url env_url metadatas embed
      index_name texts = (Except.ok store, ops)) :
    (∀ query k, ∀ d ∈ store.similarity_search query k, d.metadata = []) ∧
    (∀ ts, (store.add_texts ts).1.isOk = false) := by
  refine ⟨?_, fun _ => rfl⟩
  intro query k d hd
  simp only [ElasticVectorSearch.similarity_search, List.map_map,
    List.mem_map] at hd
  obtain ⟨_, -, rfl⟩ := hd
  rfl

/-- C3 witness: the store built from `["alpha"]` with metadata passed at
creation. -/
theorem claim3_witness :
    (∀ query k, ∀ d ∈ w1Store.similarity_search query k, d.metadata = []) ∧
    (∀ ts, (w1Store.add_texts ts).1.isOk = false) :=
  claim3_metadata_never_returned (some "http://localhost:9200") none
    (some [[("source", "wiki")]]) w1Embed "idx1" ["alpha"] w1Store w1Ops rfl

/-- C4: the claim describes the intended behavior of
`add_texts` (embed each text, bulk-index one entry per text, refresh),
but the code references the unimported name `bulk` (imported only inside
`from_texts`'s local scope), so every call raises `NameError` after
embedding and before any entry is indexed or any refresh happens: the
engine sees no operation at all. -/
theorem claim4_add_texts_raises_name_error (store : ElasticVectorSearch)
    (texts : List String) :
    store.add_texts texts = (Except.error (PyErr.nameError "bulk"), []) := rfl

/-- C5: when no `elasticsearch_url` kwarg is supplied (or it is empty)
and the environment variable is unset or empty, `from_texts` fails with
the descriptive `ValueError` and issues no engine operation at all. -/
theorem claim5_missing_url_value_error (kwargs_url env_url : Option String)
    (metadatas : Option (List PyDict)) (embed : String → List ℤ)
    (index_name : String) (texts : List String)
    (hkw : kwargs_url = none ∨ kwargs_url = some "")
    (henv : env_url = none ∨ env_url = some "") :
    ElasticVectorSearch.from_texts kwargs_url env_url metadatas embed
      index_name texts = (Except.error (PyErr.valueError urlErrorMsg), []) := by
  rcases hkw with h | h <;> rcases henv with h' | h' <;> subst h <;> subst h' <;> rfl

/-- C5 witness: no kwarg, no environment variable. -/
theorem claim5_witness :
    ElasticVectorSearch.from_texts none none none w1Embed "idx1" ["alpha"] =
      (Except.error (PyErr.valueError urlErrorMsg), []) :=
  claim5_missing_url_value_error none none none w1Embed "idx1" ["alpha"]
    (Or.inl rfl) (Or.inl rfl)

/-- C9: with a valid endpoint but empty `texts`, `from_texts` raises
`IndexError` at `dim = len(embeddings[0])`; the only engine interaction
is constructing the client — in particular no index is ever created, so
the success branch is unreachable for empty input. -/
theorem claim9_empty_texts_index_error (kwargs_url : String)
    (hne : kwargs_url ≠ "") (env_url : Option String)
    (metadatas : Option (List PyDict)) (embed : String → List ℤ)
    (index_name : String) :
    ElasticVectorSearch.from_texts (some kwargs_url) env_url metadatas embed
      index_name [] =
      (Except.error PyErr.indexError, [EsOp.connect kwargs_url]) := by
  simp [ElasticVectorSearch.from_texts, resolveElasticsearchUrl, hne]

/-- C9 witness: a concrete valid endpoint with empty input. -/
theorem claim9_witness :
    ElasticVectorSearch.from_texts (some "http://localhost:9200") none none
      w1Embed "idx1" [] =
      (Except.error PyErr.indexError, [EsOp.connect "http://localhost:9200"]) :=
  claim9_empty_texts_index_error "http://localhost:9200" (by decide) none none
    w1Embed "idx1"

/-- C2 counterexample: `texts = ["a", "b"]` with the deterministic,
exact embedding `cexEmbed` (`"a" ↦ [2]`, `"b" ↦ [1]`).  The two vectors
are positive scalar multiples, so both entries tie at the maximal cosine
score for the query `"b"`, and the engine's ranking (stable, insertion
order on ties) puts `"a"` first: `similarity_search(texts[1], k=1)`
returns the document `"a"`, not `"b"`. -/
theorem claim2_counterexample :
    (match (ElasticVectorSearch.from_texts (some "http://localhost:9200") none
        none cexEmbed "idxc" ["a", "b"]).1 with
     | Except.ok store => store.similarity_search "b" 1
     | Except.error _ => []) =
      [{ page_content := "a", metadata := [] }] ∧
    ({ page_content := "a", metadata := [] } : Document) ≠
      { page_content := "b", metadata := [] } := by
  constructor
  · decide
  · decide

set_option maxHeartbeats 2000000 in
/-- C2 (amended): identity retrieval holds provided additionally that
every stored text other than `texts[i]` scores strictly below
`texts[i]`'s own (maximal) cosine score against the query — equivalently,
no distinct text embeds to a positive scalar multiple of
`texts[i]`'s vector.  Without this the scores tie (cosine ignores
magnitude) and an earlier-inserted entry wins. -/
theorem claim2_identity_retrieval (kwargs_url env_url : Option String)
    (metadatas : Option (List PyDict)) (embed : String → List ℤ)
    (index_name : String) (texts : List String)
    (store : ElasticVectorSearch) (ops : List EsOp)
    (hok : ElasticVectorSearch.from_texts kwargs_url env_url metadatas embed
      index_name texts = (Except.ok store, ops))
    (i : Nat) (hi : i < texts.length)
    (hstrict : ∀ t ∈ texts, t ≠ texts[i] →
      scoreLtB (embed texts[i]) (embed t) (embed texts[i]) = true) :
    store.similarity_search texts[i] 1 =
      [{ page_content := texts[i], metadata := [] }] := by
  obtain ⟨hemb, hentries, -⟩ := from_texts_ok_inv kwargs_url env_url metadatas
    embed index_name texts store ops hok
  have hne : store.entries ≠ [] := by
    rw [hentries]
    intro hcon
    rw [List.map_eq_nil_iff] at hcon
    subst hcon
    simp at hi
  -- the sorted hit list is nonempty
  cases hs : sortDesc
      (fun e1 e2 => scoreLeB (embed texts[i]) e1.2 e2.2) store.entries with
  | nil =>
    have hlen := length_sortDesc
      (fun e1 e2 => scoreLeB (embed texts[i]) e1.2 e2.2) store.entries
    rw [hs] at hlen
    exact absurd (List.length_eq_zero.mp hlen.symm) hne
  | cons hd tl =>
    -- the head is an entry for some stored text
    have hmem : hd ∈ store.entries := by
      have hmem0 : hd ∈ sortDesc
          (fun e1 e2 => scoreLeB (embed texts[i]) e1.2 e2.2) store.entries := by
        rw [hs]; exact List.mem_cons_self hd tl
      exact (mem_sortDesc _ hd store.entries).mp hmem0
    rw [hentries] at hmem
    obtain ⟨t0, ht0, hht⟩ := List.mem_map.mp hmem
    -- the self entry is stored, so the head's score dominates its score
    have hself : (texts[i], embed texts[i]) ∈ store.entries := by
      rw [hentries]
      exact List.mem_map.mpr ⟨texts[i], List.getElem_mem hi, rfl⟩
    have hmax := sortDesc_head_max
      (fun e1 e2 => scoreLeB (embed texts[i]) e1.2 e2.2)
      (fun a b hab => scoreLeB_total (embed texts[i]) a.2 b.2 hab)
      (fun a b c hab hbc => scoreLeB_trans (embed texts[i]) a.2 b.2 c.2 hab hbc)
      store.entries hd tl hs (texts[i], embed texts[i]) hself
    rw [← hht] at hmax
    simp only at hmax
    -- hence the head's text is texts[i]
    have ht0eq : t0 = texts[i] := by
      by_contra hneq
      have hlt := hstrict t0 ht0 hneq
      rw [scoreLtB, Bool.not_eq_true'] at hlt
      rw [hmax] at hlt
      exact Bool.noConfusion hlt
    -- conclude by computing similarity_search
    simp only [ElasticVectorSearch.similarity_search, esSearch, hemb, hs,
      List.take_succ_cons, List.take_zero, List.map_cons, List.map_nil]
    rw [← hht, ht0eq]

/-- C2 witness: `["a", "b"]` under the orthogonal embedding `w2Embed`,
querying the second text. -/
theorem claim2_witness :
    w2Store.similarity_search "b" 1 =
      [{ page_content := "b", metadata := [] }] :=
  claim2_identity_retrieval (some "http://localhost:9200") none none w2Embed
    "idx2" ["a", "b"] w2Store w2Ops rfl 1 (by decide) (by decide)

/-- C6: with a non-empty `example_keys` allow-list configured, if some
listed key is absent from the metadata of some retrieved document, then
`select_examples` fails with a key-lookup error instead of returning
that example with the key omitted. -/
theorem claim6_projection_key_error (s : SemanticSimilarityExampleSelector)
    (input_variables : PyDict) (keys : List String)
    (hkeys : s.example_keys = some keys) (hne : keys ≠ [])
    (doc : Document)
    (hdoc : doc ∈ s.vectorstore_search (selectExamplesQuery input_variables) s.k)
    (key : String) (hkey : key ∈ keys)
    (hmiss : dictGet doc.metadata key = none) :
    ∃ e, s.select_examples input_variables = Except.error e := by
  have hmem : doc.metadata ∈
      (s.vectorstore_search (selectExamplesQuery input_variables) s.k).map
        (fun e => e.metadata) :=
    List.mem_map_of_mem _ hdoc
  obtain ⟨e, he⟩ := projectAll_error keys _ doc.metadata hmem
    (projectExample_error keys doc.metadata key hkey hmiss)
  refine ⟨e, ?_⟩
  unfold SemanticSimilarityExampleSelector.select_examples
  rw [hkeys]
  cases keys with
  | nil => exact absurd rfl hne
  | cons k0 ks => simpa using he

/-- C6 witness: allow-list `["b"]` against a retrieved example holding
only key `"a"`. -/
theorem claim6_witness :
    ∃ e, w6Selector.select_examples [("q", "x")] = Except.error e :=
  claim6_projection_key_error w6Selector [("q", "x")] ["b"] rfl (by decide)
    { page_content := "t", metadata := [("a", "1")] } (by decide) "b"
    (by decide) (by decide)

/-- C7: `from_examples` (per example) and `select_examples` (for the
input variables) flatten a mapping with the identical function: both
join the mapping's values with single spaces in the mapping's iteration
order and ignore the keys entirely (two mappings with the same values
under different keys flatten identically). -/
theorem claim7_flatten_agreement (ks ks' vs : List String)
    (h1 : ks.length = vs.length) (h2 : ks'.length = vs.length) :
    fromExamplesText (ks.zip vs) = selectExamplesQuery (ks'.zip vs) ∧
    selectExamplesQuery (ks'.zip vs) = String.intercalate " " vs ∧
    (∀ m : PyDict, fromExamplesText m = selectExamplesQuery m) := by
  have hsnd : ∀ ks0 : List String, ks0.length = vs.length →
      (ks0.zip vs).map Prod.snd = vs := by
    intro ks0 h
    exact List.map_snd_zip ks0 vs (le_of_eq h.symm)
  refine ⟨?_, ?_, fun m => rfl⟩
  · unfold fromExamplesText selectExamplesQuery
    rw [hsnd ks h1, hsnd ks' h2]
  · unfold selectExamplesQuery
    rw [hsnd ks' h2]

/-- C7 witness: two different key lists over the same values. -/
theorem claim7_witness :
    fromExamplesText (["k1", "k2"].zip ["x", "y"]) =
      selectExamplesQuery (["c1", "c2"].zip ["x", "y"]) ∧
    selectExamplesQuery (["c1", "c2"].zip ["x", "y"]) =
      String.intercalate " " ["x", "y"] ∧
    (∀ m : PyDict, fromExamplesText m = selectExamplesQuery m) :=
  claim7_flatten_agreement ["k1", "k2"] ["c1", "c2"] ["x", "y"] rfl rfl

/-- C8: storing examples via `from_examples` over a backend that
persists `metadatas` and returns the stored example's document for a
query identical to that example's flattened text, `select_examples` on
that same input returns the example's complete field→value mapping when
no projection is configured, and — once `example_keys` is set to a
non-empty list of keys the example carries — exactly that subset: the
projected dict's keys are the configured keys in order, with the
example's values. -/
theorem claim8_round_trip (examples : List PyDict)
    (impl : List String → List PyDict → (String → Nat → List Document))
    (k : Nat) (i : Nat) (hi : i < examples.length) (keys : List String)
    (hsearch : impl (examples.map fromExamplesText) examples
        (fromExamplesText examples[i]) k =
      [{ page_content := fromExamplesText examples[i],
         metadata := examples[i] }])
    (hne : keys ≠ [])
    (hpresent : ∀ key ∈ keys, (dictGet examples[i] key).isSome) :
    (SemanticSimilarityExampleSelector.from_examples examples impl
        k).select_examples examples[i] = Except.ok [examples[i]] ∧
    ∃ proj,
      ({ SemanticSimilarityExampleSelector.from_examples examples impl k with
         example_keys := some keys }
        : SemanticSimilarityExampleSelector).select_examples examples[i] =
          Except.ok [proj] ∧
      proj.map Prod.fst = keys ∧
      ∀ q ∈ proj, dictGet examples[i] q.1 = some q.2 := by
  obtain ⟨p, hp, hfst, hvals⟩ := projectExample_ok keys examples[i] hpresent
  constructor
  · unfold SemanticSimilarityExampleSelector.select_examples
      SemanticSimilarityExampleSelector.from_examples
    simp only [selectQuery_eq_fromText, hsearch, List.map_cons, List.map_nil]
  · refine ⟨p, ?_, hfst, hvals⟩
    unfold SemanticSimilarityExampleSelector.select_examples
      SemanticSimilarityExampleSelector.from_examples
    simp only [selectQuery_eq_fromText, hsearch, List.map_cons, List.map_nil]
    cases keys with
    | nil => exact absurd rfl hne
    | cons k0 ks =>
      simp only [List.isEmpty_cons, if_false, Bool.false_eq_true]
      simp [projectAll, hp, Except.map]

/-- C8 witness: the single stored example `{q: 2+2, a: 4}` under the
exact-match backend `w8Impl`, with projection onto `["a"]`. -/
theorem claim8_witness :
    (SemanticSimilarityExampleSelector.from_examples w8Examples w8Impl
        1).select_examples [("q", "2+2"), ("a", "4")] =
      Except.ok [[("q", "2+2"), ("a", "4")]] ∧
    ∃ proj,
      ({ SemanticSimilarityExampleSelector.from_examples w8Examples w8Impl 1 with
         example_keys := some ["a"] }
        : SemanticSimilarityExampleSelector).select_examples
          [("q", "2+2"), ("a", "4")] = Except.ok [proj] ∧
      proj.map Prod.fst = ["a"] ∧
      ∀ q ∈ proj, dictGet [("q", "2+2"), ("a", "4")] q.1 = some q.2 :=
  claim8_round_trip w8Examples w8Impl 1 0 (by decide) ["a"] (by decide)
    (by decide) (by decide)

/-- C10: when `example_keys` is the empty list — configured but holding
no keys — Python's truthiness test skips the projection entirely, so
`select_examples` returns each retrieved document's full metadata dict
(not a sequence of empty dicts). -/
theorem claim10_empty_allowlist_no_projection
    (search : String → Nat → List Document) (k : Nat)
    (input_variables : PyDict) :
    SemanticSimilarityExampleSelector.select_examples
        { vectorstore_search := search, k := k, example_keys := some [] }
        input_variables =
      Except.ok ((search (selectExamplesQuery input_variables) k).map
        (fun d => d.metadata)) := rfl

end LangChain
